import Mathlib

/-!
Shallow embedding of the match-statistics engine of
`streamlit_app/app.py` (football dashboard).

The dataframe is a `List Row`; pandas boolean-mask filtering is
`List.filter`; `groupby(k).sum()` is a map over the (ascending-sorted,
deduplicated) keys; `sort_values(ascending=False)` is modelled as the
reverse of a stable ascending sort (pandas computes an ascending argsort
and reverses the indexer for descending order; the default
`kind=quicksort` gives no stability guarantee, and on small arrays
numpy's introsort degenerates to a stable insertion sort, so the
reverse-of-stable-ascending model matches observable behaviour on small
inputs). Match outcomes are the three-valued enum of the data model.
-/

/-- The `match_outcome` column: the data model's enum {H, A, D}. -/
inductive Outcome where
  | H
  | A
  | D
deriving DecidableEq, Repr

/-- One row of the match table, restricted to the columns the engine
reads. -/
structure Row where
  competition_name : String
  stage : String
  home_team : String
  away_team : String
  fulltime_home : Nat
  fulltime_away : Nat
  total_goals : Nat
  match_outcome : Outcome
deriving DecidableEq, Repr

/-- `filtered = df[df["competition_name"] == league]` followed by
`if stage != "All": filtered = filtered[filtered["stage"] == stage]`. -/
def filterTable (table : List Row) (league sel : String) : List Row :=
  let filtered := table.filter (fun r => r.competition_name == league)
  if sel != "All" then filtered.filter (fun r => r.stage == sel) else filtered

/-- `sort_values(ascending=False)` on a column extracted by `key`:
pandas computes an ascending argsort of the values and reverses the
resulting indexer (`pandas.core.sorting.nargsort`).  The ascending
argsort is modelled as a stable ascending sort; the default
`kind=quicksort` guarantees no tie order at all, and on small inputs
numpy falls back to a stable insertion sort, making this model exact
there. -/
def sortDescBy (key : α → Nat) (l : List α) : List α :=
  (List.insertionSort (fun a b => key a ≤ key b) l).reverse

/-- The first operand of the `pd.concat`: the
`(home_team, fulltime_home)` projection renamed to `(team, goals)`. -/
def homeProj (fs : List Row) : List (String × Nat) :=
  fs.map (fun r => (r.home_team, r.fulltime_home))

/-- The second operand of the `pd.concat`: the
`(away_team, fulltime_away)` projection renamed to `(team, goals)`. -/
def awayProj (fs : List Row) : List (String × Nat) :=
  fs.map (fun r => (r.away_team, r.fulltime_away))

/-- The concatenated `(team, goals)` frame fed to both `team_goals`
and `cumulative_goals`: all home projections, then all away
projections. -/
def projections (fs : List Row) : List (String × Nat) :=
  homeProj fs ++ awayProj fs

/-- `groupby("team")["goals"].sum()` evaluated at one team: the sum of
the goals of that team's entries of the concatenated frame. -/
def goalsOf (fs : List Row) (t : String) : Nat :=
  (((projections fs).filter (fun p => p.fst == t)).map Prod.snd).sum

/-- Lexicographic `≤` on character lists by code point, used for the
ascending order of group keys. -/
def charListLe : List Char → List Char → Bool
  | [], _ => true
  | _ :: _, [] => false
  | c :: cs, d :: ds =>
      if c.toNat < d.toNat then true
      else if d.toNat < c.toNat then false
      else charListLe cs ds

/-- Lexicographic `≤` on strings by code point. -/
def strLe (a b : String) : Bool :=
  charListLe a.data b.data

/-- The group keys of `groupby("team")`: the distinct team names,
sorted ascending (pandas groupby sorts group keys by default). -/
def teamKeys (fs : List Row) : List String :=
  List.insertionSort (fun a b => strLe a b = true)
    ((projections fs).map Prod.fst).dedup

/-- `team_goals`: the per-team goal sums of the concatenated frame,
as `(team, goals)` pairs sorted by `sort_values(ascending=False)`. -/
def team_goals (fs : List Row) : List (String × Nat) :=
  sortDescBy Prod.snd ((teamKeys fs).map (fun t => (t, goalsOf fs t)))

/-- `top_team = team_goals.index[0]` (only evaluated on a non-empty
filtered set, where at least one team exists). -/
def top_team (fs : List Row) : String :=
  ((team_goals fs).headD ("", 0)).fst

/-- `value_counts()` on the outcome column: each distinct value present
paired with its number of occurrences (values absent from the column
are absent from the result, as in pandas). -/
def value_counts (l : List Outcome) : List (Outcome × Nat) :=
  l.dedup.map (fun o => (o, (l.filter (fun x => x == o)).length))

/-- `counts.get(o, 0)`: the count of `o`, defaulting to `0` when the
value never occurs. -/
def countsGet (vc : List (Outcome × Nat)) (o : Outcome) : Nat :=
  (vc.lookup o).getD 0

/-- `outcome_counts.get("H", 0)` over the filtered set. -/
def home_wins_count (fs : List Row) : Nat :=
  countsGet (value_counts (fs.map (fun r => r.match_outcome))) Outcome.H

/-- `outcome_counts.get("A", 0)` over the filtered set. -/
def away_wins_count (fs : List Row) : Nat :=
  countsGet (value_counts (fs.map (fun r => r.match_outcome))) Outcome.A

/-- `outcome_counts.get("D", 0)` over the filtered set. -/
def draws_count (fs : List Row) : Nat :=
  countsGet (value_counts (fs.map (fun r => r.match_outcome))) Outcome.D

/-- `home_wins_pct = (home_wins_count / total_matches) * 100`, in exact
rational arithmetic. -/
def home_wins_pct (fs : List Row) : ℚ :=
  ((home_wins_count fs : ℚ) / (fs.length : ℚ)) * 100

/-- `away_wins_pct = (away_wins_count / total_matches) * 100`. -/
def away_wins_pct (fs : List Row) : ℚ :=
  ((away_wins_count fs : ℚ) / (fs.length : ℚ)) * 100

/-- `draws_pct = (draws_count / total_matches) * 100`. -/
def draws_pct (fs : List Row) : ℚ :=
  ((draws_count fs : ℚ) / (fs.length : ℚ)) * 100

/-- The outcome-percentage report: the three KPI cards keyed `H`, `A`,
`D`. -/
def outcomePercentages (fs : List Row) : List (Outcome × ℚ) :=
  [(Outcome.H, home_wins_pct fs), (Outcome.A, away_wins_pct fs),
    (Outcome.D, draws_pct fs)]

/-- `avg_goals = filtered["total_goals"].mean()`, in exact rational
arithmetic. -/
def avg_goals (fs : List Row) : ℚ :=
  ((fs.map (fun r => r.total_goals)).sum : ℚ) / (fs.length : ℚ)

/-- The scalar KPI block rendered by the six metric cards. -/
structure KPIReport where
  totalMatches : Nat
  avgGoals : ℚ
  homeWinsPct : ℚ
  awayWinsPct : ℚ
  drawsPct : ℚ
  topTeam : String
deriving DecidableEq, Repr

/-- The engine run for one filter selection: filter, then
`if total_matches == 0: st.warning(...); st.stop()` — the empty case
stops before any KPI is computed, modelled as `none`. -/
def runEngine (table : List Row) (league sel : String) : Option KPIReport :=
  let filtered := filterTable table league sel
  if filtered.length = 0 then none
  else
    some
      { totalMatches := filtered.length
        avgGoals := avg_goals filtered
        homeWinsPct := home_wins_pct filtered
        awayWinsPct := away_wins_pct filtered
        drawsPct := draws_pct filtered
        topTeam := top_team filtered }

/-- `top_matches = filtered.sort_values("total_goals", ascending=False).head(n)`
(the source fixes `n = 10`). -/
def topNByGoals (fs : List Row) (n : Nat) : List Row :=
  (sortDescBy (fun r => r.total_goals) fs).take n

/-- The "Top 10 Highest Scoring Matches" table of the source. -/
def top_matches (fs : List Row) : List Row :=
  topNByGoals fs 10

/-- `groupby("team")["goals"].cumsum()` over the concatenated frame:
each entry is replaced by the running total of its team so far, in frame
order; the team labels column re-assigned afterwards is exactly the
frame's own team sequence, so the pair list keeps the original labels. -/
def cumsumByTeam : List (String × Nat) → (String → Nat) → List (String × Nat)
  | [], _ => []
  | (t, g) :: rest, acc =>
      (t, acc t + g) ::
        cumsumByTeam rest (fun s => if s = t then acc t + g else acc s)

/-- The `cumulative_goals` table of the source: per-team running totals
over the concatenated (home block, then away block) frame. -/
def cumulative_goals (fs : List Row) : List (String × Nat) :=
  cumsumByTeam (projections fs) (fun _ => 0)

/-- The goals a given team scores in each of its matches, in
filtered-set row order, home and away roles interleaved. -/
def teamGoalSeq (fs : List Row) (t : String) : List Nat :=
  fs.filterMap
    (fun r =>
      if r.home_team == t then some r.fulltime_home
      else if r.away_team == t then some r.fulltime_away
      else none)

/-- Running sums of a list of naturals starting from `init`. -/
def runningSums (init : Nat) : List Nat → List Nat
  | [] => []
  | g :: gs => (init + g) :: runningSums (init + g) gs

/-- The spec's cumulative-goals sequence for one team, following the
spec's words: the running sum of the team's goals over the sequence of
its matches in filtered-set order, home and away roles interleaved. -/
def specCumulativeOf (fs : List Row) (t : String) : List Nat :=
  runningSums 0 (teamGoalSeq fs t)

/-- Row constructor helper for concrete tables; `total_goals` is set to
its data-model value `fulltime_home + fulltime_away`. -/
def mkRow (c s h a : String) (fh fa : Nat) (o : Outcome) : Row :=
  { competition_name := c, stage := s, home_team := h, away_team := a,
    fulltime_home := fh, fulltime_away := fa, total_goals := fh + fa,
    match_outcome := o }

/-- A one-match table in which the two teams "Alpha" and "Beta" finish
with equal goal totals. -/
def ex4 : List Row := [mkRow "L" "S" "Alpha" "Beta" 1 1 Outcome.D]

/-- A three-match table in which team "A" plays away (scoring 2), then
home (scoring 0), then home (scoring 3). -/
def fs3 : List Row :=
  [mkRow "L" "S" "B" "A" 1 2 Outcome.A,
   mkRow "L" "S" "A" "B" 0 0 Outcome.D,
   mkRow "L" "S" "A" "C" 3 0 Outcome.H]

/-- First of two rows tied on `total_goals`. -/
def ra : Row := mkRow "L" "S" "X" "X2" 2 1 Outcome.H

/-- Second of two rows tied on `total_goals`. -/
def rb : Row := mkRow "L" "S" "Y" "Y2" 1 2 Outcome.A

/-- A two-row table whose rows are tied on `total_goals`. -/
def exC5 : List Row := [ra, rb]

/-- A table holding a row whose stage field is the literal string
"All" next to a row of stage "Group", both of competition "L". -/
def w10Row : Row := mkRow "L" "Group" "H2" "A2" 0 0 Outcome.D

/-- See `w10Row`. -/
def w10Table : List Row :=
  [mkRow "L" "All" "H1" "A1" 1 0 Outcome.H, w10Row]

/-- C7: `filterTable` returns exactly the rows with the selected
competition whose stage matches the selection (with "All" matching
every stage), as an order-preserving subsequence of the table. -/
theorem filterTable_spec (table : List Row) (league sel : String) :
    filterTable table league sel =
      table.filter
        (fun r => r.competition_name == league && (sel == "All" || r.stage == sel)) ∧
    (filterTable table league sel).Sublist table := by
  constructor
  · unfold filterTable
    by_cases h : sel = "All"
    · subst h
      simp only [bne_self_eq_false, Bool.false_eq_true, if_false]
      refine List.filter_congr ?_
      intro r _
      simp
    · have hb : (sel != "All") = true := by
        simpa [bne_iff_ne] using h
      have hb2 : (sel == "All") = false := by
        simpa [beq_eq_false_iff_ne] using h
      rw [hb, if_pos rfl, List.filter_filter]
      refine List.filter_congr ?_
      intro r _
      simp [hb2, Bool.and_comm]
  · unfold filterTable
    by_cases h : (sel != "All") = true
    · rw [if_pos h]
      exact ((List.filter_sublist _).trans (List.filter_sublist _))
    · rw [if_neg h]
      exact List.filter_sublist _

/-- C10: "All" is a reserved sentinel. Selecting stage "All" applies no
stage predicate (every row of the competition is returned, including
rows whose stage field is literally the string "All"), and any stage
selection other than "All" returns no row whose stage field is "All" —
such rows can never be isolated. -/
theorem filterTable_all_sentinel (table : List Row) (league : String) :
    filterTable table league "All" =
      table.filter (fun r => r.competition_name == league) ∧
    ∀ sel : String, sel ≠ "All" →
      ∀ r ∈ filterTable table league sel, r.stage ≠ "All" := by
  constructor
  · unfold filterTable
    simp
  · intro sel hsel r hr
    unfold filterTable at hr
    have hb : (sel != "All") = true := by simpa [bne_iff_ne] using hsel
    rw [hb, if_pos rfl] at hr
    have := List.of_mem_filter hr
    have hstage : r.stage = sel := by simpa [beq_iff_eq] using this
    rw [hstage]
    exact hsel

/-- C10 witness: the "Group" row of the example table survives a
non-"All" stage selection and its stage is not the sentinel. -/
theorem filterTable_all_sentinel_witness : w10Row.stage ≠ "All" :=
  (filterTable_all_sentinel w10Table "L").2 "Group" (by decide) w10Row (by decide)

/-- C2: when the filter criteria match no row, the engine run stops at
the empty-result check and produces no KPI report at all. -/
theorem runEngine_empty (table : List Row) (league sel : String)
    (h : filterTable table league sel = []) :
    runEngine table league sel = none := by
  unfold runEngine
  rw [h]
  rfl

/-- C2 witness: a competition absent from the table yields the
empty-result state. -/
theorem runEngine_empty_witness : runEngine ex4 "Other" "All" = none :=
  runEngine_empty ex4 "Other" "All" (by decide)

/-- C3, behaviour at the failing input: the source's cumulative-goals
table processes all of a team's home appearances before all of its away
appearances, so team "A" of `fs3` (away 2 goals, home 0, home 3 in
match order) gets the running totals [0, 3, 5], while the spec's
interleaved per-team running sum is [2, 2, 5]. -/
theorem cumulative_goals_home_block :
    ((cumulative_goals fs3).filter (fun p => p.fst == "A")).map Prod.snd = [0, 3, 5] ∧
    specCumulativeOf fs3 "A" = [2, 2, 5] ∧
    ((cumulative_goals fs3).filter (fun p => p.fst == "A")).map Prod.snd ≠
      specCumulativeOf fs3 "A" := by
  refine ⟨by decide, by decide, by decide⟩

/-- C4, behaviour at the failing input: with "Alpha" and "Beta" tied at
one goal each, the tally comes out with the tied teams in descending
name order and `top_team` is "Beta", not the lexicographically smallest
name "Alpha" — no ascending-name tie-break exists in the code. -/
theorem team_goals_tie_break :
    team_goals ex4 = [("Beta", 1), ("Alpha", 1)] ∧ top_team ex4 = "Beta" := by
  refine ⟨by decide, by decide⟩

/-- The sorted frame produced by `sort_values(ascending=False)` is a
permutation of its input. -/
theorem sortDescBy_perm (key : α → Nat) (l : List α) :
    (sortDescBy key l).Perm l :=
  (List.reverse_perm _).trans (List.perm_insertionSort _ _)

/-- C5 counterexample: two rows tied on `total_goals` do not keep their
original order — the descending sort reverses them, so the claimed
stable output `[ra, rb]` is not what the code produces. -/
theorem topNByGoals_not_stable :
    topNByGoals exC5 2 = [rb, ra] ∧ topNByGoals exC5 2 ≠ [ra, rb] := by
  refine ⟨by decide, by decide⟩

/-- C5 (amended): `topNByGoals` returns the first `n` rows of the table
sorted descending by `total_goals` (so the output has `min n len` rows),
and when `n` is at least the number of rows it returns a permutation of
all rows, sorted descending, not an error; the order of rows tied on
`total_goals` is not the original row order. -/
theorem topNByGoals_spec (fs : List Row) (n : Nat) :
    List.Sorted (fun a b : Row => b.total_goals ≤ a.total_goals) (topNByGoals fs n) ∧
    (topNByGoals fs n).length = min n fs.length ∧
    (fs.length ≤ n → (topNByGoals fs n).Perm fs) := by
  haveI htot : IsTotal Row (fun a b => a.total_goals ≤ b.total_goals) :=
    ⟨fun a b => Nat.le_total _ _⟩
  haveI htr : IsTrans Row (fun a b => a.total_goals ≤ b.total_goals) :=
    ⟨fun a b c => Nat.le_trans⟩
  refine ⟨?_, ?_, ?_⟩
  · have hs : List.Sorted (fun a b : Row => a.total_goals ≤ b.total_goals)
        (List.insertionSort (fun a b => a.total_goals ≤ b.total_goals) fs) :=
      List.sorted_insertionSort _ fs
    have hrev : List.Pairwise (fun a b : Row => b.total_goals ≤ a.total_goals)
        (sortDescBy (fun r => r.total_goals) fs) := by
      unfold sortDescBy
      exact List.pairwise_reverse.2 hs
    exact hrev.sublist (List.take_sublist _ _)
  · have hlen : (sortDescBy (fun r : Row => r.total_goals) fs).length = fs.length := by
      unfold sortDescBy
      rw [List.length_reverse, List.length_insertionSort]
    unfold topNByGoals
    rw [List.length_take, hlen]
  · intro hle
    unfold topNByGoals
    have hlen : (sortDescBy (fun r : Row => r.total_goals) fs).length ≤ n := by
      unfold sortDescBy
      rw [List.length_reverse, List.length_insertionSort]
      exact hle
    rw [List.take_of_length_le hlen]
    exact sortDescBy_perm _ _

/-- C5 witness: with `n` exceeding the two available rows, the output is
a permutation of the whole table. -/
theorem topNByGoals_spec_witness : (topNByGoals exC5 3).Perm exC5 :=
  (topNByGoals_spec exC5 3).2.2 (by decide)

/-- Membership in the group keys is membership among the team names of
the concatenated frame. -/
theorem mem_teamKeys {fs : List Row} {t : String} :
    t ∈ teamKeys fs ↔ t ∈ (projections fs).map Prod.fst := by
  unfold teamKeys
  rw [(List.perm_insertionSort _ _).mem_iff, List.mem_dedup]

/-- The grouped sum of one team splits into its home-goal and away-goal
sums over the filtered set. -/
theorem goalsOf_eq (fs : List Row) (t : String) :
    goalsOf fs t
      = ((fs.filter (fun r => r.home_team == t)).map (fun r => r.fulltime_home)).sum
        + ((fs.filter (fun r => r.away_team == t)).map (fun r => r.fulltime_away)).sum := by
  unfold goalsOf projections homeProj awayProj
  rw [List.filter_append, List.map_append, List.sum_append,
    List.filter_map, List.filter_map, List.map_map, List.map_map]
  rfl

/-- C1: for a team appearing (home or away) in a non-empty filtered
set, the tally lists that team with exactly the sum of its fulltime_home
goals over its home matches plus its fulltime_away goals over its away
matches, and no other total is listed for it. -/
theorem team_goals_tally (fs : List Row) (t : String) (hne : fs ≠ [])
    (happ : ∃ r ∈ fs, r.home_team = t ∨ r.away_team = t) :
    (t, ((fs.filter (fun r => r.home_team == t)).map (fun r => r.fulltime_home)).sum
        + ((fs.filter (fun r => r.away_team == t)).map (fun r => r.fulltime_away)).sum)
      ∈ team_goals fs ∧
    ∀ g : Nat, (t, g) ∈ team_goals fs →
      g = ((fs.filter (fun r => r.home_team == t)).map (fun r => r.fulltime_home)).sum
        + ((fs.filter (fun r => r.away_team == t)).map (fun r => r.fulltime_away)).sum := by
  have hmem : t ∈ teamKeys fs := by
    apply mem_teamKeys.2
    obtain ⟨r, hr, hcase⟩ := happ
    rcases hcase with h | h
    · exact List.mem_map.2 ⟨(r.home_team, r.fulltime_home),
        List.mem_append_left _ (List.mem_map_of_mem _ hr), h⟩
    · exact List.mem_map.2 ⟨(r.away_team, r.fulltime_away),
        List.mem_append_right _ (List.mem_map_of_mem _ hr), h⟩
  constructor
  · rw [← goalsOf_eq]
    exact ((sortDescBy_perm _ _).mem_iff).2
      (List.mem_map_of_mem (fun k => (k, goalsOf fs k)) hmem)
  · intro g hg
    have hg2 := ((sortDescBy_perm _ _).mem_iff).1 hg
    obtain ⟨k, _, hkeq⟩ := List.mem_map.1 hg2
    have h1 : k = t := congrArg Prod.fst hkeq
    have h2 : goalsOf fs k = g := congrArg Prod.snd hkeq
    rw [← h2, h1, goalsOf_eq]

/-- C1 witness: in the one-match table `ex4`, team "Alpha" is tallied
with its home goals plus its away goals. -/
theorem team_goals_tally_witness :
    ("Alpha",
      ((ex4.filter (fun r => r.home_team == "Alpha")).map (fun r => r.fulltime_home)).sum
        + ((ex4.filter (fun r => r.away_team == "Alpha")).map (fun r => r.fulltime_away)).sum)
      ∈ team_goals ex4 :=
  (team_goals_tally ex4 "Alpha" (by decide) (by decide)).1

/-- Sums of pointwise sums split. -/
theorem sum_map_add_nat (l : List α) (f g : α → Nat) :
    (l.map (fun x => f x + g x)).sum = (l.map f).sum + (l.map g).sum := by
  induction l with
  | nil => rfl
  | cons a l ih =>
    simp only [List.map_cons, List.sum_cons, ih]
    omega

/-- Over a duplicate-free key list containing `a`, the sum of the
indicator contribution of `a` is the single value `x`. -/
theorem sum_single_key (a : String) (x : Nat) :
    ∀ ks : List String, ks.Nodup → a ∈ ks →
      (ks.map (fun k => if a == k then x else 0)).sum = x := by
  intro ks
  induction ks with
  | nil => intro _ ha; cases ha
  | cons k ks ih =>
    intro hnd ha
    simp only [List.map_cons, List.sum_cons]
    rcases List.mem_cons.1 ha with rfl | hmem
    · have hz : (ks.map (fun k2 => if a == k2 then x else 0)).sum = 0 := by
        apply List.sum_eq_zero
        intro y hy
        obtain ⟨k2, hk2, rfl⟩ := List.mem_map.1 hy
        have hne : a ≠ k2 := fun h => (List.nodup_cons.1 hnd).1 (h ▸ hk2)
        simp [hne]
      rw [if_pos (by simp), hz]
      omega
    · have hne : a ≠ k := by
        intro h
        exact (List.nodup_cons.1 hnd).1 (h ▸ hmem)
      rw [if_neg (by simpa using hne), ih (List.nodup_cons.1 hnd).2 hmem]
      omega

/-- Grouping a `(key, value)` frame by a duplicate-free key list that
covers every key partitions the total: summing the per-key group sums
recovers the sum of all values. -/
theorem sum_groups (ks : List String) (hnd : ks.Nodup) :
    ∀ l : List (String × Nat), (∀ p ∈ l, p.fst ∈ ks) →
      (ks.map (fun k => ((l.filter (fun p => p.fst == k)).map Prod.snd).sum)).sum
        = (l.map Prod.snd).sum := by
  intro l
  induction l with
  | nil => intro _; simp
  | cons a l ih =>
    intro hcov
    have hstep : ∀ k : String,
        ((List.filter (fun p => p.fst == k) (a :: l)).map Prod.snd).sum
          = (if a.fst == k then a.snd else 0)
            + ((l.filter (fun p => p.fst == k)).map Prod.snd).sum := by
      intro k
      by_cases h : (a.fst == k : Bool) = true
      · rw [List.filter_cons, if_pos h, if_pos h, List.map_cons, List.sum_cons]
      · rw [List.filter_cons, if_neg h, if_neg h]
        omega
    rw [List.map_congr_left (fun k _ => hstep k), sum_map_add_nat,
      sum_single_key a.fst a.snd ks hnd (hcov a (List.mem_cons_self a l)),
      ih (fun p hp => hcov p (List.mem_cons_of_mem a hp)),
      List.map_cons, List.sum_cons]

/-- C9: when every row satisfies the data-model invariant
`total_goals = fulltime_home + fulltime_away`, the tally attributes
every goal to exactly one team — the tally totals sum to the sum of
`total_goals` over the filtered set. -/
theorem team_goals_conservation (fs : List Row)
    (hinv : ∀ r ∈ fs, r.total_goals = r.fulltime_home + r.fulltime_away) :
    ((team_goals fs).map Prod.snd).sum = (fs.map (fun r => r.total_goals)).sum := by
  have hperm : (((team_goals fs).map Prod.snd)).Perm
      ((((teamKeys fs).map (fun t => (t, goalsOf fs t))).map Prod.snd)) :=
    List.Perm.map _ (sortDescBy_perm _ _)
  rw [hperm.sum_eq, List.map_map]
  have hnd : (teamKeys fs).Nodup :=
    ((List.perm_insertionSort _ _).nodup_iff).2 (List.nodup_dedup _)
  have hcov : ∀ p ∈ projections fs, p.fst ∈ teamKeys fs := fun p hp =>
    mem_teamKeys.2 (List.mem_map_of_mem _ hp)
  have h1 := sum_groups (teamKeys fs) hnd (projections fs) hcov
  have h2 : ((projections fs).map Prod.snd).sum
      = (fs.map (fun r => r.fulltime_home)).sum
        + (fs.map (fun r => r.fulltime_away)).sum := by
    unfold projections homeProj awayProj
    rw [List.map_append, List.sum_append, List.map_map, List.map_map]
    rfl
  have h3 : (fs.map (fun r => r.total_goals)).sum
      = (fs.map (fun r => r.fulltime_home)).sum
        + (fs.map (fun r => r.fulltime_away)).sum := by
    rw [← sum_map_add_nat]
    exact congrArg List.sum (List.map_congr_left hinv)
  rw [h3, ← h2, ← h1]
  rfl

/-- C9 witness: conservation holds on the three-match table `fs3`. -/
theorem team_goals_conservation_witness :
    ((team_goals fs3).map Prod.snd).sum = (fs3.map (fun r => r.total_goals)).sum :=
  team_goals_conservation fs3 (by decide)

/-- Looking up a key present in a keyed map of a key list returns its
image. -/
theorem lookup_map_self (f : Outcome → Nat) :
    ∀ (ks : List Outcome) (o : Outcome), o ∈ ks →
      (ks.map (fun k => (k, f k))).lookup o = some (f o) := by
  intro ks
  induction ks with
  | nil => intro o h; cases h
  | cons k ks ih =>
    intro o ho
    by_cases h : o = k
    · subst h
      simp [List.lookup_cons]
    · have hb : (o == k) = false := by simpa using h
      rcases List.mem_cons.1 ho with h1 | h1
      · exact absurd h1 h
      · rw [List.map_cons, List.lookup_cons, hb]
        exact ih o h1

/-- Looking up a key absent from a keyed map of a key list fails. -/
theorem lookup_map_none (f : Outcome → Nat) :
    ∀ (ks : List Outcome) (o : Outcome), o ∉ ks →
      (ks.map (fun k => (k, f k))).lookup o = none := by
  intro ks
  induction ks with
  | nil => intro o _; rfl
  | cons k ks ih =>
    intro o ho
    have hb : (o == k) = false := by
      simp only [beq_eq_false_iff_ne, ne_eq]
      exact fun h => ho (h ▸ List.mem_cons_self k ks)
    rw [List.map_cons, List.lookup_cons, hb]
    exact ih o (fun h => ho (List.mem_cons_of_mem k h))

/-- `value_counts(...).get(o, 0)` is the number of occurrences of `o`,
whether or not `o` occurs. -/
theorem countsGet_eq (l : List Outcome) (o : Outcome) :
    countsGet (value_counts l) o = (l.filter (fun x => x == o)).length := by
  unfold countsGet value_counts
  by_cases h : o ∈ l
  · rw [lookup_map_self _ _ _ (List.mem_dedup.2 h)]
    rfl
  · rw [lookup_map_none _ _ _ (fun hc => h (List.mem_dedup.1 hc))]
    have hnil : l.filter (fun x => x == o) = [] := by
      rw [List.filter_eq_nil_iff]
      intro a ha hbeq
      exact h ((by simpa using hbeq : a = o) ▸ ha)
    rw [hnil]
    rfl

/-- The `.get("H", 0)`-style count equals the number of filtered-set
rows with that outcome. -/
theorem count_eq_filter_length (fs : List Row) (o : Outcome) :
    countsGet (value_counts (fs.map (fun r => r.match_outcome))) o
      = (fs.filter (fun r => r.match_outcome == o)).length := by
  rw [countsGet_eq, List.filter_map, List.length_map]
  rfl

/-- C6: on a non-empty filtered set the outcome-percentage report has
exactly the keys H, A, D in that order, maps each to
(count of that outcome / totalMatches) × 100, and maps an outcome
occurring in no row to 0 — present, not missing, not an error. -/
theorem outcomePercentages_spec (fs : List Row) (hne : fs ≠ []) :
    (outcomePercentages fs).map Prod.fst = [Outcome.H, Outcome.A, Outcome.D] ∧
    (∀ o : Outcome, (outcomePercentages fs).lookup o
        = some (((fs.filter (fun r => r.match_outcome == o)).length : ℚ)
            / (fs.length : ℚ) * 100)) ∧
    (∀ o : Outcome, (∀ r ∈ fs, r.match_outcome ≠ o) →
      (outcomePercentages fs).lookup o = some 0) := by
  have hl : ∀ o : Outcome, (outcomePercentages fs).lookup o
      = some (((fs.filter (fun r => r.match_outcome == o)).length : ℚ)
          / (fs.length : ℚ) * 100) := by
    intro o
    cases o
    · show some (home_wins_pct fs) = _
      unfold home_wins_pct home_wins_count
      rw [count_eq_filter_length]
    · show some (away_wins_pct fs) = _
      unfold away_wins_pct away_wins_count
      rw [count_eq_filter_length]
    · show some (draws_pct fs) = _
      unfold draws_pct draws_count
      rw [count_eq_filter_length]
  refine ⟨rfl, hl, ?_⟩
  intro o h
  rw [hl o]
  have hnil : fs.filter (fun r => r.match_outcome == o) = [] := by
    rw [List.filter_eq_nil_iff]
    intro r hr hbeq
    exact h r hr (by simpa using hbeq)
  rw [hnil]
  norm_num

/-- C6 witness: on `fs3` the H card shows its exact share. -/
theorem outcomePercentages_spec_witness :
    (outcomePercentages fs3).lookup Outcome.H
      = some (((fs3.filter (fun r => r.match_outcome == Outcome.H)).length : ℚ)
          / (fs3.length : ℚ) * 100) :=
  (outcomePercentages_spec fs3 (by decide)).2.1 Outcome.H

/-- Every row has exactly one of the three outcomes, so the three
outcome counts partition the filtered set. -/
theorem outcome_filter_partition (fs : List Row) :
    (fs.filter (fun r => r.match_outcome == Outcome.H)).length
      + (fs.filter (fun r => r.match_outcome == Outcome.A)).length
      + (fs.filter (fun r => r.match_outcome == Outcome.D)).length = fs.length := by
  induction fs with
  | nil => rfl
  | cons r l ih =>
    cases hro : r.match_outcome <;> simp [List.filter_cons, hro] <;> omega

/-- C8: on a non-empty filtered set the three outcome percentages sum
to exactly 100 in rational arithmetic. -/
theorem outcome_percentages_sum_100 (fs : List Row) (hne : fs ≠ []) :
    home_wins_pct fs + away_wins_pct fs + draws_pct fs = 100 := by
  have hlen : fs.length ≠ 0 := fun h => hne (List.eq_nil_of_length_eq_zero h)
  have hn : (fs.length : ℚ) ≠ 0 := Nat.cast_ne_zero.2 hlen
  have hsum : home_wins_count fs + away_wins_count fs + draws_count fs
      = fs.length := by
    unfold home_wins_count away_wins_count draws_count
    rw [count_eq_filter_length, count_eq_filter_length, count_eq_filter_length]
    exact outcome_filter_partition fs
  have hq : ((home_wins_count fs : ℚ)) + (away_wins_count fs : ℚ)
      + (draws_count fs : ℚ) = (fs.length : ℚ) := by
    exact_mod_cast hsum
  unfold home_wins_pct away_wins_pct draws_pct
  field_simp
  linarith [hq]

/-- C8 witness: the shares of `fs3` (one H, one A, one D) sum to 100. -/
theorem outcome_percentages_sum_100_witness :
    home_wins_pct fs3 + away_wins_pct fs3 + draws_pct fs3 = 100 :=
  outcome_percentages_sum_100 fs3 (by decide)
